import Mathlib

/-!
Verification development for the `ctf-jail-cpp` repository (a Rust web service
hosting semi-trusted Rune scripts that may read files only inside a designated
data directory).

The embedding models, from the source:
  * `src/engine/modules/context.rs` — lexical path handling
    (`normalize_path`, `to_abs_pathbuf`, `security_path_within`,
    `file_exists`, `DataBucket::read`, `DataBucket::list`);
  * `src/engine/engine.rs` — result classification
    (`process_result`, `rune_value_throw_or_stringify`, `call_check`);
  * `src/sandbox.rs` — `Sandbox`, `SandboxManager`.

Paths are modelled as the component sequences produced by Rust's
`std::path::Path::components()` on Unix; the filesystem, the process current
directory and the Rune virtual machine are explicit parameters, since the
corresponding Rust calls (`fs::*`, `std::env::current_dir`, `Vm::call`) reach
outside the repository's code.
-/

set_option autoImplicit false

namespace CtfJail

/-- One component of a Unix path, as produced by `Path::components()` in Rust:
the leading root directory, a leading `.`, a `..` step, or a normal name. -/
inductive PathComp where
  | root
  | cur
  | parent
  | normal (s : String)
  deriving DecidableEq, Repr

/-- Split a character list on `/`, keeping empty segments (mirrors what
`Path::components()` sees before it discards empty and interior-`.`
segments). -/
def splitOnSlash : List Char → List (List Char)
  | [] => [[]]
  | c :: rest =>
    match splitOnSlash rest with
    | seg :: segs => if c = '/' then [] :: seg :: segs else (c :: seg) :: segs
    | [] => [[]]

/-- The component sequence of a path string, following Rust
`Path::components()` on Unix: a leading `/` yields `root` (duplicate leading
slashes collapse), a leading `.` (alone or followed by `/`) yields `cur`,
empty segments and interior `.` segments are dropped, `..` yields `parent`,
anything else is a `normal` name. -/
def parseComponents (s : String) : List PathComp :=
  let cs := s.toList
  let isAbs : Bool := match cs with
    | '/' :: _ => true
    | _ => false
  let incCur : Bool := match cs with
    | ['.'] => true
    | '.' :: '/' :: _ => true
    | _ => false
  let segs := (splitOnSlash cs).filter (fun t => decide (t ≠ [] ∧ t ≠ ['.']))
  let comps := segs.map (fun t =>
    if t = ['.', '.'] then PathComp.parent else PathComp.normal (String.mk t))
  (if isAbs then [PathComp.root] else [])
    ++ (if incCur then [PathComp.cur] else []) ++ comps

/-- `Path::is_absolute` / `has_root` on Unix: the path starts with `/`. -/
def is_absolute : List PathComp → Bool
  | PathComp.root :: _ => true
  | _ => false

/-- `Path::join` / `PathBuf::push`: an absolute right-hand side replaces the
left-hand side, otherwise the components are appended. -/
def pathJoin (p q : List PathComp) : List PathComp :=
  if is_absolute q then q else p ++ q

/-- `Path::starts_with base`: the component sequence of `base` is a prefix of
the component sequence of the path. -/
def path_starts_with : List PathComp → List PathComp → Bool
  | _, [] => true
  | [], _ :: _ => false
  | a :: as, b :: bs => if a = b then path_starts_with as bs else false

/-- `normalize_path` from `context.rs`: fold over the components pushing
normal components, dropping `.`, and letting `..` pop the previously pushed
component when one exists (a leading `..` is silently discarded). -/
def normalize_path (cs : List PathComp) : List PathComp :=
  cs.foldl
    (fun acc c =>
      match c with
      | PathComp.parent => if acc.isEmpty then acc else acc.dropLast
      | PathComp.cur => acc
      | c => acc ++ [c])
    []

/-- `normalize_path` applied to a raw path string (the Rust function is
generic over `AsRef<Path>`; applied to a `&str` it first parses the
components). -/
def normalizeStr (s : String) : List PathComp :=
  normalize_path (parseComponents s)

/-- `to_abs_pathbuf` from `context.rs`. `cwd` stands for
`std::env::current_dir()`, which the Rust code reads whenever it needs an
anchor. -/
def to_abs_pathbuf (target_path : List PathComp) (context_path : Option (List PathComp))
    (cwd : List PathComp) : List PathComp :=
  let ctx : List PathComp :=
    match context_path with
    | some c => if is_absolute c then c else pathJoin cwd c
    | none => cwd
  if is_absolute target_path then normalize_path target_path
  else normalize_path (pathJoin ctx target_path)

/-- `security_path_within` from `context.rs`: resolve the root and the tested
path and check component-wise containment via `starts_with`.  (The Rust
function also prints a log line to stdout; the print has no effect on the
returned decision and is not modelled.) -/
def security_path_within (test_path super_path : List PathComp) (cwd : List PathComp) : Bool :=
  let super_abs := to_abs_pathbuf super_path none cwd
  let cur_abs := to_abs_pathbuf test_path (some super_path) cwd
  path_starts_with cur_abs super_abs

/-- The kind of a `std::io::Error` (`io::ErrorKind`): the two kinds the
repository constructs explicitly, plus an opaque kind for errors coming back
from the operating system. -/
inductive IOErrorKind where
  | permissionDenied
  | notFound
  | other (descr : String)
  deriving DecidableEq, Repr

/-- A `std::io::Error`: its kind together with its display message. -/
structure IOError where
  kind : IOErrorKind
  msg : String
  deriving DecidableEq, Repr

/-- The filesystem as seen through the `std::fs` / `std::path` calls the
repository makes.  Queries take the raw component sequence handed to the OS;
`readDir` yields the entry file names after the source's
`filter_map(Result::ok)` and `into_string().unwrap_or_default()` steps
(unreadable entries dropped, a non-UTF-8 name becoming `""`). -/
structure FileSystem where
  pathExists : List PathComp → Bool
  isDir : List PathComp → Bool
  readToString : List PathComp → Except IOError String
  readDir : List PathComp → Except IOError (List String)

/-- `file_exists` from `context.rs`: join the tested path onto the context
path and ask the OS whether anything exists there (true for directories as
well as regular files). -/
def file_exists (test_path context_path : List PathComp) (fs : FileSystem) : Bool :=
  fs.pathExists (pathJoin context_path test_path)

/-- `DataBucket` from `context.rs`: carries the data-bucket directory
(stored as a string in Rust; embedded as its component sequence). -/
structure DataBucket where
  path : List PathComp

/-- `Context` from `context.rs`: wraps the `DataBucket` handed to scripts. -/
structure Context where
  bucket : DataBucket

/-- `Context::new` from `context.rs`. -/
def Context.new (bucket_path : List PathComp) : Context :=
  ⟨⟨bucket_path⟩⟩

/-- `DataBucket::read` from `context.rs`: normalize the requested path, deny
when the security check fails, report NotFound when nothing exists at the
joined path, otherwise read and wrap any underlying failure with its kind and
cause. -/
def DataBucket.read (self : DataBucket) (file_path : String) (cwd : List PathComp)
    (fs : FileSystem) : Except IOError String :=
  let safe_file_path := normalize_path (parseComponents file_path)
  let abs_path := to_abs_pathbuf safe_file_path (some self.path) cwd
  if !(security_path_within safe_file_path self.path cwd) then
    .error ⟨.permissionDenied, "Access to this path is not allowed: " ++ file_path⟩
  else if !(file_exists safe_file_path self.path fs) then
    .error ⟨.notFound, "File not found: " ++ file_path⟩
  else
    match fs.readToString abs_path with
    | .ok s => .ok s
    | .error e => .error ⟨e.kind, "Failed to read file " ++ file_path ++ ": " ++ e.msg⟩

/-- `DataBucket::list` from `context.rs`: same confinement check, NotFound
when the resolved path is not a directory, otherwise the entry names. -/
def DataBucket.list (self : DataBucket) (dpath : String) (cwd : List PathComp)
    (fs : FileSystem) : Except IOError (List String) :=
  let safe_path := normalize_path (parseComponents dpath)
  let abs_path := to_abs_pathbuf safe_path (some self.path) cwd
  if !(security_path_within safe_path self.path cwd) then
    .error ⟨.permissionDenied, "Access to this path is not allowed: " ++ dpath⟩
  else if !(fs.isDir abs_path) then
    .error ⟨.notFound, "Directory not found: " ++ dpath⟩
  else
    match fs.readDir abs_path with
    | .ok entries => .ok entries
    | .error e => .error ⟨e.kind, "Failed to read directory: " ++ e.msg⟩

/-- The kind of the error part of a `DataBucket` result, when there is one. -/
def errKindOf {α : Type} : Except IOError α → Option IOErrorKind
  | .error e => some e.kind
  | .ok _ => none

/-- The success part of a `DataBucket` result, when there is one. -/
def okValueOf {α : Type} : Except IOError α → Option α
  | .error _ => none
  | .ok v => some v

/-! ### Engine result classification (`src/engine/engine.rs`) -/

/-- The fragment of `serde_json::Value` exercised at the engine boundary in
this repository (the claims only ever serialize scalar payloads; structured
aggregates never reach `rune_value_throw_or_stringify` in them). -/
inductive Json where
  | null
  | bool (b : Bool)
  | num (n : Int)
  | str (s : String)
  deriving DecidableEq, Repr

/-- JSON string escaping as performed by `serde_json::to_string`: quote and
backslash are escaped, the common control characters get their short forms,
remaining control characters a lowercase `\u00..` form. -/
def jsonEscapeChar (c : Char) : String :=
  if c = '"' then "\\\""
  else if c = '\\' then "\\\\"
  else if c = '\n' then "\\n"
  else if c = '\r' then "\\r"
  else if c = '\t' then "\\t"
  else if c.toNat < 32 then
    "\\u00" ++ String.mk [Nat.digitChar (c.toNat / 16), Nat.digitChar (c.toNat % 16)]
  else String.mk [c]

/-- Render a JSON string literal, quotes included. -/
def jsonRenderString (s : String) : String :=
  "\"" ++ String.join (s.toList.map jsonEscapeChar) ++ "\""

/-- Render a scalar JSON value the way `serde_json::to_string` prints it. -/
def Json.render : Json → String
  | .null => "null"
  | .bool true => "true"
  | .bool false => "false"
  | .num n => toString n
  | .str s => jsonRenderString s

/-- The shape of a `rune::Value` as the engine boundary distinguishes it:
a two-armed `Result`, a string, a serializable structured value, a propagated
`anyhow::Error` or `std::io::Error` object, or a value `serde_json` cannot
serialize (functions, foreign objects, ...). -/
inductive RuneValue where
  | resultOk (v : RuneValue)
  | resultErr (v : RuneValue)
  | str (s : String)
  | structured (j : Json)
  | errAny (msg : String)
  | errIo (e : IOError)
  | unconvertible (descr : String)
  deriving DecidableEq, Repr

/-- Whether `rune::from_value::<Result<Value, Value>>` succeeds on the value:
exactly the two-armed `Result` shapes. -/
def isRuneResult : RuneValue → Bool
  | .resultOk _ => true
  | .resultErr _ => true
  | _ => false

/-- Whether `rune::from_value::<String>` succeeds on the value, and the string
it yields. -/
def fromValueString : RuneValue → Option String
  | .str s => some s
  | _ => none

/-- The `serde_json` view of a value (`rune::to_value` followed by
serialization): strings and structured scalars serialize; `Result` values and
foreign objects do not serialize at this boundary.  (The `errAny`/`errIo`
shapes are intercepted before serialization is attempted; nested `Result`
payloads are not exercised by any claim and are modelled as
unserializable.) -/
def toSerdeJson : RuneValue → Option Json
  | .str s => some (.str s)
  | .structured j => some j
  | _ => none

/-- An engine-level fault (`anyhow::Error` at the Rust level): a compile or
invocation fault from the VM, a rethrown script `Error` object, a rethrown
`io::Error`, or a serialization failure. -/
inductive EngineFault where
  | hostFault (msg : String)
  | thrown (msg : String)
  | ioThrown (e : IOError)
  | unserializable (msg : String)
  deriving DecidableEq, Repr

/-- `rune_value_throw_or_stringify` from `engine.rs`: a propagated
`anyhow::Error` or `io::Error` object is rethrown as a runtime fault;
otherwise the value is serialized to JSON text, a serialization failure
becoming a fault naming the unconvertible value. -/
def rune_value_throw_or_stringify : RuneValue → Except EngineFault String
  | .errAny m => .error (.thrown m)
  | .errIo e => .error (.ioThrown e)
  | v =>
    match toSerdeJson v with
    | some j => .ok j.render
    | none => .error (.unserializable ("Unable to serialize value: " ++ reprStr v))

/-- `process_result` from `engine.rs`: a `Result`-shaped value is unwrapped
one level — its success arm stringifies into the outer success, its error arm
becomes the rejection message (directly when it is a string, otherwise via
stringification); any other value is treated whole as a success payload.
Stringification faults propagate as engine faults via `?`. -/
def process_result (value : RuneValue) : Except EngineFault (Except String String) :=
  match value with
  | .resultOk success_value =>
    match rune_value_throw_or_stringify success_value with
    | .ok s => .ok (.ok s)
    | .error e => .error e
  | .resultErr error_value =>
    match fromValueString error_value with
    | some error_msg => .ok (.error error_msg)
    | none =>
      match rune_value_throw_or_stringify error_value with
      | .ok s => .ok (.error s)
      | .error e => .error e
  | v =>
    match rune_value_throw_or_stringify v with
    | .ok s => .ok (.ok s)
    | .error e => .error e

/-- `RuneEngine::call_check` from `engine.rs`, with the opaque compilation and
VM invocation (`compile_vm`, `Vm::call`) abstracted as a function `vm` from
the user input to either a host fault or the script's raw return value; the
`?` on the VM call propagates the fault, a returned value is classified by
`process_result`. -/
def call_check (vm : String → Except EngineFault RuneValue) (user_input : String) :
    Except EngineFault (Except String String) :=
  match vm user_input with
  | .error e => .error e
  | .ok output => process_result output

/-- The tri-state outcome of one invocation as the callers in `main.rs`
distinguish it: outer `Err` is an internal fault (generic failure to remote
callers), `Ok(Ok _)` a success payload, `Ok(Err _)` an application
rejection. -/
inductive Outcome where
  | success (payload : String)
  | rejected (reason : String)
  | faulted (diag : EngineFault)
  deriving DecidableEq, Repr

/-- Classification of an engine result into the tri-state outcome. -/
def classify : Except EngineFault (Except String String) → Outcome
  | .error e => .faulted e
  | .ok (.ok s) => .success s
  | .ok (.error m) => .rejected m

/-! ### Sandbox manager (`src/sandbox.rs`) -/

/-- `Sandbox` from `sandbox.rs`: owns one temporary directory; the directory
is identified by the token the allocator handed out. -/
structure Sandbox where
  temp_dir : Nat
  deriving DecidableEq, Repr

/-- `Sandbox::path`: the path of the owned temporary directory. -/
def Sandbox.path (self : Sandbox) : Nat :=
  self.temp_dir

/-- `Sandbox::new` — `TempDir::new()` allocates a fresh, previously unused
temporary directory; modelled as a counter-backed allocator returning the new
sandbox and the advanced counter. -/
def Sandbox.new (fresh : Nat) : Sandbox × Nat :=
  (⟨fresh⟩, fresh + 1)

/-- Insert into the id-to-sandbox map (`HashMap::insert`: replaces an
existing binding for the id, otherwise adds one). -/
def mapInsert (k : String) (v : Sandbox) : List (String × Sandbox) → List (String × Sandbox)
  | [] => [(k, v)]
  | (k', v') :: rest => if k' = k then (k, v) :: rest else (k', v') :: mapInsert k v rest

/-- Look up an id in the id-to-sandbox map (`HashMap::get`). -/
def mapLookup (k : String) : List (String × Sandbox) → Option Sandbox
  | [] => none
  | (k', v') :: rest => if k' = k then some v' else mapLookup k rest

/-- Remove an id from the id-to-sandbox map (`HashMap::remove`). -/
def mapRemove (k : String) : List (String × Sandbox) → List (String × Sandbox)
  | [] => []
  | (k', v') :: rest => if k' = k then rest else (k', v') :: mapRemove k rest

/-- `SandboxManager` from `sandbox.rs`: the map from sandbox id to the stored
sandbox (the `RwLock` only serializes access and is not modelled). -/
structure SandboxManager where
  sandboxes : List (String × Sandbox)
  deriving DecidableEq, Repr

/-- `SandboxManager::create_sandbox` from `sandbox.rs`: create a sandbox,
store it in the map under the id, then create and return a second, different
sandbox "for execution".  Returns the caller's sandbox, the new manager state
and the advanced allocator counter. -/
def SandboxManager.create_sandbox (self : SandboxManager) (id : String) (fresh : Nat) :
    Sandbox × SandboxManager × Nat :=
  match Sandbox.new fresh with
  | (sandbox, fresh1) =>
    let self1 : SandboxManager := ⟨mapInsert id sandbox self.sandboxes⟩
    match Sandbox.new fresh1 with
    | (ret, fresh2) => (ret, self1, fresh2)

/-- `SandboxManager::get_sandbox` from `sandbox.rs`: the path of the sandbox
stored under the id, when present. -/
def SandboxManager.get_sandbox (self : SandboxManager) (id : String) : Option Nat :=
  (mapLookup id self.sandboxes).map Sandbox.path

/-- `SandboxManager::cleanup_sandbox` from `sandbox.rs`: drop the stored
sandbox for the id (its temp dir is cleaned on drop), erroring when the id is
unknown. -/
def SandboxManager.cleanup_sandbox (self : SandboxManager) (id : String) :
    Except String SandboxManager :=
  match mapLookup id self.sandboxes with
  | some _ => .ok ⟨mapRemove id self.sandboxes⟩
  | none => .error ("Sandbox " ++ id ++ " not found")

/-! ### Helper lemmas -/

theorem path_starts_with_iff (p base : List PathComp) :
    path_starts_with p base = true ↔ List.IsPrefix base p := by
  induction p generalizing base with
  | nil =>
    cases base with
    | nil => simp [path_starts_with]
    | cons b bs => simp [path_starts_with, List.prefix_nil]
  | cons a as ih =>
    cases base with
    | nil => simp [path_starts_with, List.nil_prefix]
    | cons b bs =>
      simp only [path_starts_with, List.cons_prefix_cons]
      by_cases hab : a = b
      · subst hab
        simp [ih]
      · simp [hab, Ne.symm hab]

theorem path_starts_with_append (l t : List PathComp) :
    path_starts_with (l ++ t) l = true :=
  (path_starts_with_iff (l ++ t) l).mpr ⟨t, rfl⟩

theorem pathJoin_of_abs {p q : List PathComp} (h : is_absolute q = true) :
    pathJoin p q = q := by
  simp [pathJoin, h]

theorem pathJoin_of_rel {p q : List PathComp} (h : is_absolute q = false) :
    pathJoin p q = p ++ q := by
  simp [pathJoin, h]

theorem to_abs_pathbuf_none (p cwd : List PathComp) :
    to_abs_pathbuf p none cwd = normalize_path (pathJoin cwd p) := by
  by_cases h : is_absolute p = true
  · simp [to_abs_pathbuf, h, pathJoin_of_abs h]
  · simp only [Bool.not_eq_true] at h
    simp [to_abs_pathbuf, h, pathJoin_of_rel h]

theorem to_abs_pathbuf_some_of_rel (t sup cwd : List PathComp)
    (h : is_absolute t = false) :
    to_abs_pathbuf t (some sup) cwd = normalize_path (pathJoin cwd sup ++ t) := by
  by_cases hs : is_absolute sup = true
  · simp [to_abs_pathbuf, h, hs, pathJoin_of_abs hs, pathJoin_of_rel h]
  · simp only [Bool.not_eq_true] at hs
    simp [to_abs_pathbuf, h, hs, pathJoin_of_rel h]

theorem normalize_path_append_normal (xs : List PathComp) (s : String) :
    normalize_path (xs ++ [PathComp.normal s]) = normalize_path xs ++ [PathComp.normal s] := by
  simp [normalize_path, List.foldl_append]

theorem normalize_path_append_normals (xs : List PathComp) (l : List String) :
    normalize_path (xs ++ l.map PathComp.normal)
      = normalize_path xs ++ l.map PathComp.normal := by
  induction l generalizing xs with
  | nil => simp
  | cons s rest ih =>
    have hsplit : xs ++ (s :: rest).map PathComp.normal
        = (xs ++ [PathComp.normal s]) ++ rest.map PathComp.normal := by simp
    rw [hsplit, ih, normalize_path_append_normal, List.append_assoc]
    rfl

/-- A filesystem with nothing in it. -/
def emptyFs : FileSystem :=
  ⟨fun _ => false, fun _ => false,
   fun _ => .error ⟨.notFound, "entity not found"⟩,
   fun _ => .error ⟨.notFound, "entity not found"⟩⟩

-- sanity checks of the parser against Rust `Path::components()` behaviour
example : parseComponents "/ctx" = [PathComp.root, PathComp.normal "ctx"] := by decide
example : parseComponents "" = [] := by decide
example : parseComponents "./a" = [PathComp.cur, PathComp.normal "a"] := by decide
example : parseComponents "a//b/" = [PathComp.normal "a", PathComp.normal "b"] := by decide
example : parseComponents "../../etc/passwd"
    = [PathComp.parent, PathComp.parent, PathComp.normal "etc", PathComp.normal "passwd"] := by
  decide
example : normalizeStr "../../etc/passwd" = [PathComp.normal "etc", PathComp.normal "passwd"] := by
  decide
example : normalizeStr "a/../b" = [PathComp.normal "b"] := by decide
example : security_path_within (normalizeStr "/data-other") (parseComponents "/data")
    [PathComp.root] = false := by decide
example : security_path_within (normalizeStr "../secret") (parseComponents "/ctx")
    [PathComp.root] = true := by decide

theorem read_of_denied {sup : List PathComp} {fp : String} {cwd : List PathComp}
    {fs : FileSystem}
    (h : security_path_within (normalize_path (parseComponents fp)) sup cwd = false) :
    DataBucket.read ⟨sup⟩ fp cwd fs =
      .error ⟨.permissionDenied, "Access to this path is not allowed: " ++ fp⟩ := by
  simp [DataBucket.read, h]

theorem read_of_not_exists {sup : List PathComp} {fp : String} {cwd : List PathComp}
    {fs : FileSystem}
    (h1 : security_path_within (normalize_path (parseComponents fp)) sup cwd = true)
    (h2 : file_exists (normalize_path (parseComponents fp)) sup fs = false) :
    DataBucket.read ⟨sup⟩ fp cwd fs = .error ⟨.notFound, "File not found: " ++ fp⟩ := by
  simp [DataBucket.read, h1, h2]

theorem read_of_read_error {sup : List PathComp} {fp : String} {cwd : List PathComp}
    {fs : FileSystem} {e : IOError}
    (h1 : security_path_within (normalize_path (parseComponents fp)) sup cwd = true)
    (h2 : file_exists (normalize_path (parseComponents fp)) sup fs = true)
    (h3 : fs.readToString
        (to_abs_pathbuf (normalize_path (parseComponents fp)) (some sup) cwd) = .error e) :
    DataBucket.read ⟨sup⟩ fp cwd fs =
      .error ⟨e.kind, "Failed to read file " ++ fp ++ ": " ++ e.msg⟩ := by
  simp [DataBucket.read, h1, h2, h3]

theorem read_of_read_ok {sup : List PathComp} {fp : String} {cwd : List PathComp}
    {fs : FileSystem} {s : String}
    (h1 : security_path_within (normalize_path (parseComponents fp)) sup cwd = true)
    (h2 : file_exists (normalize_path (parseComponents fp)) sup fs = true)
    (h3 : fs.readToString
        (to_abs_pathbuf (normalize_path (parseComponents fp)) (some sup) cwd) = .ok s) :
    DataBucket.read ⟨sup⟩ fp cwd fs = .ok s := by
  simp [DataBucket.read, h1, h2, h3]

theorem security_path_within_empty (sup cwd : List PathComp) :
    security_path_within [] sup cwd = true := by
  show path_starts_with (to_abs_pathbuf [] (some sup) cwd) (to_abs_pathbuf sup none cwd) = true
  rw [to_abs_pathbuf_some_of_rel [] sup cwd rfl, to_abs_pathbuf_none, List.append_nil]
  have h := path_starts_with_append (normalize_path (pathJoin cwd sup)) []
  rwa [List.append_nil] at h

theorem security_path_within_single_normal (sup cwd : List PathComp) (s : String) :
    security_path_within [PathComp.normal s] sup cwd = true := by
  show path_starts_with (to_abs_pathbuf [PathComp.normal s] (some sup) cwd)
      (to_abs_pathbuf sup none cwd) = true
  rw [to_abs_pathbuf_some_of_rel [PathComp.normal s] sup cwd rfl, to_abs_pathbuf_none,
    normalize_path_append_normal]
  exact path_starts_with_append _ _

theorem mapLookup_mapInsert (k : String) (v : Sandbox) (l : List (String × Sandbox)) :
    mapLookup k (mapInsert k v l) = some v := by
  induction l with
  | nil => simp [mapInsert, mapLookup]
  | cons kv rest ih =>
    obtain ⟨k', v'⟩ := kv
    by_cases h : k' = k
    · simp [mapInsert, mapLookup, h]
    · simp [mapInsert, mapLookup, h, ih]

theorem mem_snd_mapInsert {s : Sandbox} (k : String) (v : Sandbox)
    (l : List (String × Sandbox)) (h : s ∈ (mapInsert k v l).map Prod.snd) :
    s = v ∨ s ∈ l.map Prod.snd := by
  induction l with
  | nil =>
    left
    simpa [mapInsert] using h
  | cons kv rest ih =>
    obtain ⟨k', v'⟩ := kv
    by_cases hk : k' = k
    · rw [show mapInsert k v ((k', v') :: rest) = (k, v) :: rest by simp [mapInsert, hk]] at h
      simp only [List.map_cons, List.mem_cons] at h ⊢
      tauto
    · rw [show mapInsert k v ((k', v') :: rest) = (k', v') :: mapInsert k v rest by
        simp [mapInsert, hk]] at h
      simp only [List.map_cons, List.mem_cons] at h ⊢
      rcases h with h | h
      · tauto
      · rcases ih h with h' | h'
        · tauto
        · tauto

theorem mem_snd_mapRemove {s : Sandbox} (k : String) (l : List (String × Sandbox))
    (h : s ∈ (mapRemove k l).map Prod.snd) : s ∈ l.map Prod.snd := by
  induction l with
  | nil => exact absurd h (by simp [mapRemove])
  | cons kv rest ih =>
    obtain ⟨k', v'⟩ := kv
    by_cases hk : k' = k
    · rw [show mapRemove k ((k', v') :: rest) = rest by simp [mapRemove, hk]] at h
      simp only [List.map_cons, List.mem_cons]
      tauto
    · rw [show mapRemove k ((k', v') :: rest) = (k', v') :: mapRemove k rest by
        simp [mapRemove, hk]] at h
      simp only [List.map_cons, List.mem_cons] at h ⊢
      rcases h with h | h
      · tauto
      · exact .inr (ih h)

/-! ### Claim theorems -/

/-- C1: for every root and requested path, the confinement check permits
access (does not return the PermissionDenied confinement error) only if the
resolved absolute path's component sequence has the root's resolved component
sequence as a component-wise prefix or is equal to it; when the check fails,
`DataBucket::read` returns exactly the PermissionDenied confinement error;
and a sibling directory whose name merely string-extends the root
(`/data-other` under root `/data`) is denied. -/
theorem c1_confinement_component_prefix :
    (∀ (test sup cwd : List PathComp),
        security_path_within test sup cwd = true →
        List.IsPrefix (to_abs_pathbuf sup none cwd) (to_abs_pathbuf test (some sup) cwd))
    ∧ (∀ (sup : List PathComp) (fp : String) (cwd : List PathComp) (fs : FileSystem),
        security_path_within (normalize_path (parseComponents fp)) sup cwd = false →
        DataBucket.read ⟨sup⟩ fp cwd fs =
          .error ⟨.permissionDenied, "Access to this path is not allowed: " ++ fp⟩)
    ∧ security_path_within (normalizeStr "/data-other") (parseComponents "/data")
        [PathComp.root] = false
    ∧ (∀ fs : FileSystem,
        DataBucket.read ⟨parseComponents "/data"⟩ "/data-other" [PathComp.root] fs =
          .error ⟨.permissionDenied, "Access to this path is not allowed: /data-other"⟩) := by
  refine ⟨?_, ?_, by decide, fun fs => rfl⟩
  · intro test sup cwd h
    exact (path_starts_with_iff _ _).mp h
  · intro sup fp cwd fs h
    simp [DataBucket.read, h]

/-- C1 witness: a permitted concrete request (`a` under root `/d`, cwd `/`)
resolves to a path that the resolved root is a component-wise prefix of. -/
theorem c1_confinement_component_prefix_witness :
    List.IsPrefix
      (to_abs_pathbuf [PathComp.root, PathComp.normal "d"] none [PathComp.root])
      (to_abs_pathbuf [PathComp.normal "a"] (some [PathComp.root, PathComp.normal "d"])
        [PathComp.root]) :=
  c1_confinement_component_prefix.1 _ _ _ (by decide)

/-- C2 counterexample: the claim says `confine(R, "../../etc/passwd")` always
Denies and `read("../secret")` under root `/ctx` yields PermissionDenied; in
the code, leading `..` components are lexically discarded before joining, so
the first request is Permitted (it resolves inside the root `/a`), and the
second returns the NotFound error, not PermissionDenied. -/
theorem c2_counterexample :
    security_path_within (normalizeStr "../../etc/passwd") (parseComponents "/a")
        [PathComp.root] = true
    ∧ DataBucket.read ⟨parseComponents "/ctx"⟩ "../secret" [PathComp.root] emptyFs =
        .error ⟨.notFound, "File not found: ../secret"⟩ :=
  ⟨by decide, rfl⟩

/-- C2 amended: for every root, a requested path beginning with
parent-directory traversal has its leading `..` components lexically
discarded before joining: `confine(R, "../../etc/passwd")` Permits and
resolves to `R/etc/passwd` (the resolved path never escapes the resolved
root), and with root `/ctx`, `DataBucket::read("../secret")` behaves as
`read("secret")`, yielding the script-visible NotFound error when that file
is absent — never PermissionDenied and never a host fault. -/
theorem c2_amended_parent_traversal_discarded :
    (∀ (sup cwd : List PathComp),
        security_path_within (normalizeStr "../../etc/passwd") sup cwd = true
        ∧ to_abs_pathbuf (normalizeStr "../../etc/passwd") (some sup) cwd
            = to_abs_pathbuf sup none cwd
                ++ [PathComp.normal "etc", PathComp.normal "passwd"])
    ∧ (∀ (cwd : List PathComp) (fs : FileSystem),
        fs.pathExists (pathJoin (parseComponents "/ctx") [PathComp.normal "secret"]) = false →
        DataBucket.read ⟨parseComponents "/ctx"⟩ "../secret" cwd fs =
          .error ⟨.notFound, "File not found: ../secret"⟩) := by
  constructor
  · intro sup cwd
    have hn : normalizeStr "../../etc/passwd"
        = [PathComp.normal "etc", PathComp.normal "passwd"] := by decide
    have habs : is_absolute [PathComp.normal "etc", PathComp.normal "passwd"] = false := rfl
    have hmap : [PathComp.normal "etc", PathComp.normal "passwd"]
        = ([ "etc", "passwd" ] : List String).map PathComp.normal := rfl
    constructor
    · show path_starts_with
        (to_abs_pathbuf (normalizeStr "../../etc/passwd")
          (some sup) cwd) (to_abs_pathbuf sup none cwd) = true
      rw [hn, to_abs_pathbuf_some_of_rel _ sup cwd habs, to_abs_pathbuf_none, hmap,
        normalize_path_append_normals]
      exact path_starts_with_append _ _
    · rw [hn, to_abs_pathbuf_some_of_rel _ sup cwd habs, to_abs_pathbuf_none, hmap,
        normalize_path_append_normals]
  · intro cwd fs h
    have hs : normalize_path (parseComponents "../secret") = [PathComp.normal "secret"] := by
      decide
    have hsec : security_path_within [PathComp.normal "secret"] (parseComponents "/ctx") cwd
        = true := rfl
    simp [DataBucket.read, file_exists, hs, hsec, h]

/-- C2 amended witness: with root `/ctx` over the empty filesystem,
`read("../secret")` returns the NotFound error. -/
theorem c2_amended_parent_traversal_discarded_witness :
    DataBucket.read ⟨parseComponents "/ctx"⟩ "../secret" [PathComp.root] emptyFs =
      .error ⟨.notFound, "File not found: ../secret"⟩ :=
  c2_amended_parent_traversal_discarded.2 [PathComp.root] emptyFs rfl

/-- C3 counterexample: the claim says every non-`Result` return value
produces Success; but a bare propagated `Error` object (not a two-armed
`Result`) is rethrown by `rune_value_throw_or_stringify` and classifies as
Faulted, not Success. -/
theorem c3_counterexample :
    classify (process_result (RuneValue.errAny "boom"))
      = Outcome.faulted (EngineFault.thrown "boom")
    ∧ isRuneResult (RuneValue.errAny "boom") = false :=
  ⟨rfl, rfl⟩

/-- C3 amended: every engine return value that is not a two-armed `Result` is
treated whole as a success payload: whenever its stringification succeeds the
classification is Success carrying the JSON text (a payload that is a
propagated `Error` object or unserializable Faults instead); in particular
invoking "check" with the empty string on a script returning the bare string
"ok" produces Success carrying the JSON-serialized text `"ok"` (with
quotes). -/
theorem c3_amended_bare_value_success :
    (∀ (v : RuneValue) (s : String),
        isRuneResult v = false →
        rune_value_throw_or_stringify v = .ok s →
        classify (process_result v) = Outcome.success s)
    ∧ classify (call_check (fun _ => .ok (RuneValue.str "ok")) "")
        = Outcome.success "\"ok\"" := by
  constructor
  · intro v s hv hs
    cases v <;> simp_all [process_result, classify, isRuneResult]
  · rfl

/-- C3 amended witness: the bare string "ok" stringifies to `"\"ok\""` and
classifies as Success with exactly that payload. -/
theorem c3_amended_bare_value_success_witness :
    classify (process_result (RuneValue.str "ok")) = Outcome.success "\"ok\"" :=
  c3_amended_bare_value_success.1 (RuneValue.str "ok") "\"ok\"" rfl rfl

/-- C4: every genuine internal fault ends as Faulted and never as Rejected:
an engine-level fault raised during compilation or invocation propagates as
Faulted, and an unwrapped application error payload that carries a propagated
internal-fault marker (an `anyhow::Error` or `io::Error` object) is promoted
to Faulted rather than surfaced as a Rejected message. -/
theorem c4_internal_faults_always_faulted :
    (∀ (e : EngineFault) (u : String),
        classify (call_check (fun _ => .error e) u) = Outcome.faulted e)
    ∧ (∀ m, classify (process_result (RuneValue.resultErr (RuneValue.errAny m)))
        = Outcome.faulted (EngineFault.thrown m))
    ∧ (∀ e, classify (process_result (RuneValue.resultErr (RuneValue.errIo e)))
        = Outcome.faulted (EngineFault.ioThrown e)) :=
  ⟨fun _ _ => rfl, fun _ => rfl, fun _ => rfl⟩

/-- C5: a two-armed engine result whose error arm holds a plain string
payload classifies as Rejected carrying exactly that string, unmodified; in
particular a script returning the application error "bad input" yields
Rejected("bad input"). -/
theorem c5_rejected_carries_exact_text :
    (∀ s, classify (process_result (RuneValue.resultErr (RuneValue.str s)))
        = Outcome.rejected s)
    ∧ classify (call_check (fun _ => .ok (RuneValue.resultErr (RuneValue.str "bad input"))) "x")
        = Outcome.rejected "bad input" :=
  ⟨fun _ => rfl, rfl⟩

/-- A filesystem holding a directory (not a regular file) at `/data/sub`;
reading it as a file fails the way the OS fails on a directory. -/
def dirFs : FileSystem :=
  ⟨fun p => decide (p = [PathComp.root, PathComp.normal "data", PathComp.normal "sub"]),
   fun p => decide (p = [PathComp.root, PathComp.normal "data", PathComp.normal "sub"]),
   fun _ => .error ⟨.other "is a directory", "Is a directory (os error 21)"⟩,
   fun _ => .ok []⟩

/-- C6 counterexample: the claim says a permitted path that is not a regular
existing file returns NotFound; but `file_exists` uses `Path::exists`, which
is true for a directory, so a permitted directory slips past the NotFound
check and surfaces as the read-failure error with the underlying kind — not
NotFound. -/
theorem c6_counterexample :
    DataBucket.read ⟨parseComponents "/data"⟩ "sub" [PathComp.root] dirFs =
      .error ⟨.other "is a directory",
        "Failed to read file sub: Is a directory (os error 21)"⟩
    ∧ errKindOf (DataBucket.read ⟨parseComponents "/data"⟩ "sub" [PathComp.root] dirFs)
        ≠ some IOErrorKind.notFound :=
  ⟨rfl, by decide⟩

/-- C6 amended: `DataBucket::read` maps its failure modes exactly: a denied
path returns the PermissionDenied confinement error; a permitted path where
nothing exists at the root-joined location returns NotFound; a permitted path
where something exists (a directory included) whose read fails returns an
error of the underlying kind carrying the cause; and a permitted, existing,
readable path returns the contents — these are the only outcomes. -/
theorem c6_amended_read_error_mapping :
    ∀ (sup : List PathComp) (fp : String) (cwd : List PathComp) (fs : FileSystem),
      (security_path_within (normalize_path (parseComponents fp)) sup cwd = false →
        DataBucket.read ⟨sup⟩ fp cwd fs =
          .error ⟨.permissionDenied, "Access to this path is not allowed: " ++ fp⟩)
      ∧ (security_path_within (normalize_path (parseComponents fp)) sup cwd = true →
          file_exists (normalize_path (parseComponents fp)) sup fs = false →
          DataBucket.read ⟨sup⟩ fp cwd fs = .error ⟨.notFound, "File not found: " ++ fp⟩)
      ∧ (∀ e, security_path_within (normalize_path (parseComponents fp)) sup cwd = true →
          file_exists (normalize_path (parseComponents fp)) sup fs = true →
          fs.readToString
              (to_abs_pathbuf (normalize_path (parseComponents fp)) (some sup) cwd)
            = .error e →
          DataBucket.read ⟨sup⟩ fp cwd fs =
            .error ⟨e.kind, "Failed to read file " ++ fp ++ ": " ++ e.msg⟩)
      ∧ (∀ s, security_path_within (normalize_path (parseComponents fp)) sup cwd = true →
          file_exists (normalize_path (parseComponents fp)) sup fs = true →
          fs.readToString
              (to_abs_pathbuf (normalize_path (parseComponents fp)) (some sup) cwd)
            = .ok s →
          DataBucket.read ⟨sup⟩ fp cwd fs = .ok s) := by
  intro sup fp cwd fs
  exact ⟨fun h1 => by simp [DataBucket.read, h1],
         fun h1 h2 => by simp [DataBucket.read, h1, h2],
         fun e h1 h2 h3 => by simp [DataBucket.read, h1, h2, h3],
         fun s h1 h2 h3 => by simp [DataBucket.read, h1, h2, h3]⟩

/-- C6 amended witness: with root `/data` over the empty filesystem, reading
`a` is permitted but nothing exists there, so the NotFound error comes
back. -/
theorem c6_amended_read_error_mapping_witness :
    DataBucket.read ⟨parseComponents "/data"⟩ "a" [PathComp.root] emptyFs =
      .error ⟨.notFound, "File not found: a"⟩ :=
  (c6_amended_read_error_mapping (parseComponents "/data") "a" [PathComp.root] emptyFs).2.1
    (by decide) rfl

/-- C7 counterexample: the claim says two evaluations with the same root and
requested path always produce the same decision; with the relative root `r`
and requested path `/x/r/f`, the decision flips between the current
directories `/x` (Permit) and `/y` (Deny), because `to_abs_pathbuf` anchors a
relative root at `std::env::current_dir()`. -/
theorem c7_counterexample :
    security_path_within (normalizeStr "/x/r/f") [PathComp.normal "r"]
        [PathComp.root, PathComp.normal "x"] = true
    ∧ security_path_within (normalizeStr "/x/r/f") [PathComp.normal "r"]
        [PathComp.root, PathComp.normal "y"] = false :=
  ⟨by decide, by decide⟩

/-- C7 amended: the access decision is a deterministic function of the triple
(current directory, root, requested path) — the implementation reads the
process current directory (and prints a log line) while deciding — and
whenever the root is absolute the decision and the resolved path are
independent of the current directory, i.e. determined by (root, requested)
alone. -/
theorem c7_amended_decision_deterministic :
    ∀ (test sup cwd cwd' : List PathComp),
      is_absolute sup = true →
      security_path_within test sup cwd = security_path_within test sup cwd'
      ∧ to_abs_pathbuf test (some sup) cwd = to_abs_pathbuf test (some sup) cwd' := by
  intro test sup cwd cwd' h
  constructor
  · simp [security_path_within, to_abs_pathbuf, h]
  · simp [to_abs_pathbuf, h]

/-- C7 amended witness: with the absolute root `/d`, the decision for request
`a` is the same from current directory `/` and from `/elsewhere`. -/
theorem c7_amended_decision_deterministic_witness :
    security_path_within [PathComp.normal "a"] [PathComp.root, PathComp.normal "d"]
        [PathComp.root]
      = security_path_within [PathComp.normal "a"] [PathComp.root, PathComp.normal "d"]
        [PathComp.root, PathComp.normal "elsewhere"] :=
  (c7_amended_decision_deterministic [PathComp.normal "a"]
    [PathComp.root, PathComp.normal "d"] [PathComp.root]
    [PathComp.root, PathComp.normal "elsewhere"] rfl).1

/-- C8: confinement is invariant under lexical collapse of an interior
parent-directory step: for any component names `a`, `b`, the normalized form
of `a/../b` is that of `b`, so the decision coincides for every root and
current directory; and for the concrete requests `"a/../b"` and `"b"`,
`DataBucket::read` produces the same success value, the same error kind, and
the same resolved path. -/
theorem c8_interior_parent_collapse :
    (∀ (a b : String) (sup cwd : List PathComp),
        security_path_within
            (normalize_path [PathComp.normal a, PathComp.parent, PathComp.normal b]) sup cwd
          = security_path_within (normalize_path [PathComp.normal b]) sup cwd)
    ∧ normalizeStr "a/../b" = normalizeStr "b"
    ∧ (∀ (sup cwd : List PathComp) (fs : FileSystem),
        okValueOf (DataBucket.read ⟨sup⟩ "a/../b" cwd fs)
            = okValueOf (DataBucket.read ⟨sup⟩ "b" cwd fs)
        ∧ errKindOf (DataBucket.read ⟨sup⟩ "a/../b" cwd fs)
            = errKindOf (DataBucket.read ⟨sup⟩ "b" cwd fs)
        ∧ to_abs_pathbuf (normalizeStr "a/../b") (some sup) cwd
            = to_abs_pathbuf (normalizeStr "b") (some sup) cwd) := by
  refine ⟨fun a b sup cwd => rfl, by decide, ?_⟩
  intro sup cwd fs
  have hn : normalize_path (parseComponents "a/../b")
      = normalize_path (parseComponents "b") := by decide
  refine ⟨?_, ?_, rfl⟩
  all_goals
    simp only [DataBucket.read, hn]
    cases hsec : security_path_within (normalize_path (parseComponents "b")) sup cwd
    · simp [hsec, okValueOf, errKindOf]
    · cases hex : file_exists (normalize_path (parseComponents "b")) sup fs
      · simp [hsec, hex, okValueOf, errKindOf]
      · cases hr : fs.readToString
            (to_abs_pathbuf (normalize_path (parseComponents "b")) (some sup) cwd)
          <;> simp [hsec, hex, hr, okValueOf, errKindOf]

/-- A directory entry name as the operating system can return it: `read_dir`
never yields `.` or `..`, a name never contains a separator, and the
source's `into_string().unwrap_or_default()` turns a non-UTF-8 name into the
empty string.  Stated as the component-level consequence: such a name parses
and normalizes to a single normal component, or to nothing. -/
def ValidEntryName (n : String) : Prop :=
  normalize_path (parseComponents n) = []
    ∨ normalize_path (parseComponents n) = [PathComp.normal n]

instance (n : String) : Decidable (ValidEntryName n) := by
  unfold ValidEntryName
  infer_instance

/-- A filesystem with a readable directory everywhere, listing one entry. -/
def listFs : FileSystem :=
  ⟨fun _ => true, fun _ => true, fun _ => .ok "contents", fun _ => .ok ["data.json"]⟩

/-- C9: whenever `DataBucket::list(D)` succeeds, every entry name in the
returned sequence passes the confinement check when handed back to
`DataBucket::read` — the read may still end NotFound or in a wrapped I/O
error, but never in the confinement denial: provided the underlying
filesystem reads do not themselves fail with a PermissionDenied kind, no
error returned by `read` on a listed name carries the PermissionDenied
kind. -/
theorem c9_listed_names_never_denied :
    ∀ (sup : List PathComp) (dpath : String) (cwd : List PathComp) (fs : FileSystem)
      (names : List String),
      DataBucket.list ⟨sup⟩ dpath cwd fs = .ok names →
      ∀ n ∈ names, ValidEntryName n →
        security_path_within (normalize_path (parseComponents n)) sup cwd = true
        ∧ ((∀ p e, fs.readToString p = .error e → e.kind ≠ IOErrorKind.permissionDenied) →
            ∀ e, DataBucket.read ⟨sup⟩ n cwd fs = .error e →
              e.kind ≠ IOErrorKind.permissionDenied) := by
  intro sup dpath cwd fs names _ n _ hvalid
  have hsec : security_path_within (normalize_path (parseComponents n)) sup cwd = true := by
    rcases hvalid with h | h
    · rw [h]
      exact security_path_within_empty sup cwd
    · rw [h]
      exact security_path_within_single_normal sup cwd n
  refine ⟨hsec, ?_⟩
  intro hfs e hread
  by_cases hex : file_exists (normalize_path (parseComponents n)) sup fs = true
  · cases hr : fs.readToString
        (to_abs_pathbuf (normalize_path (parseComponents n)) (some sup) cwd) with
    | ok s =>
      rw [read_of_read_ok hsec hex hr] at hread
      cases hread
    | error e' =>
      rw [read_of_read_error hsec hex hr] at hread
      cases hread
      simpa using hfs _ _ hr
  · have hex' : file_exists (normalize_path (parseComponents n)) sup fs = false := by
      simpa using hex
    rw [read_of_not_exists hsec hex'] at hread
    cases hread
    simp

/-- C9 witness: over a filesystem where listing the bucket root succeeds with
the entry `data.json`, that listed name passes the confinement check for root
`/d`. -/
theorem c9_listed_names_never_denied_witness :
    security_path_within (normalize_path (parseComponents "data.json"))
      [PathComp.root, PathComp.normal "d"] [PathComp.root] = true :=
  (c9_listed_names_never_denied [PathComp.root, PathComp.normal "d"] "" [PathComp.root]
    listFs ["data.json"] rfl "data.json" (by simp) (by decide)).1

/-- C10: `SandboxManager::create_sandbox(id)` creates two distinct temporary
directories: it stores a first `Sandbox` in its map under `id` but returns a
different, freshly created `Sandbox` to the caller, so the path of the
returned handle differs from what `get_sandbox(id)` reports, the returned
handle is not tracked in the manager's map, and it survives (is not released
by) `cleanup_sandbox(id)`.  The hypothesis states the allocator invariant:
every already-stored sandbox was allocated before `fresh`. -/
theorem c10_create_sandbox_returns_untracked_second_dir :
    ∀ (self : SandboxManager) (id : String) (fresh : Nat),
      (∀ s ∈ self.sandboxes.map Prod.snd, s.temp_dir < fresh) →
      (self.create_sandbox id fresh).2.1.get_sandbox id = some fresh
      ∧ (self.create_sandbox id fresh).1.temp_dir = fresh + 1
      ∧ (self.create_sandbox id fresh).2.1.get_sandbox id
          ≠ some (self.create_sandbox id fresh).1.path
      ∧ (self.create_sandbox id fresh).1
          ∉ ((self.create_sandbox id fresh).2.1.sandboxes.map Prod.snd)
      ∧ ∀ st', (self.create_sandbox id fresh).2.1.cleanup_sandbox id = .ok st' →
          (self.create_sandbox id fresh).1 ∉ st'.sandboxes.map Prod.snd := by
  intro self id fresh hwf
  have hcreate : self.create_sandbox id fresh
      = (⟨fresh + 1⟩, ⟨mapInsert id ⟨fresh⟩ self.sandboxes⟩, fresh + 2) := rfl
  have hget : (self.create_sandbox id fresh).2.1.get_sandbox id = some fresh := by
    rw [hcreate]
    show (mapLookup id (mapInsert id ⟨fresh⟩ self.sandboxes)).map Sandbox.path = some fresh
    rw [mapLookup_mapInsert]
    rfl
  have hnotmem : (⟨fresh + 1⟩ : Sandbox) ∉ (mapInsert id ⟨fresh⟩ self.sandboxes).map Prod.snd := by
    intro hmem
    rcases mem_snd_mapInsert id ⟨fresh⟩ self.sandboxes hmem with h | h
    · cases h
    · have hlt : fresh + 1 < fresh := hwf _ h
      omega
  refine ⟨hget, rfl, ?_, ?_, ?_⟩
  · rw [hget, hcreate]
    intro h
    simp only [Sandbox.path, Option.some.injEq] at h
    omega
  · rw [hcreate]
    exact hnotmem
  · intro st' hclean
    rw [hcreate] at hclean
    have hlook : mapLookup id (mapInsert id ⟨fresh⟩ self.sandboxes) = some ⟨fresh⟩ :=
      mapLookup_mapInsert id ⟨fresh⟩ self.sandboxes
    unfold SandboxManager.cleanup_sandbox at hclean
    rw [hlook] at hclean
    cases hclean
    rw [hcreate]
    intro hmem
    exact hnotmem (mem_snd_mapRemove id _ hmem)

/-- C10 witness: starting from an empty manager with allocator counter 0,
creating sandbox "job" stores the directory 0 under "job" yet hands the
caller the different directory 1. -/
theorem c10_create_sandbox_returns_untracked_second_dir_witness :
    ((⟨[]⟩ : SandboxManager).create_sandbox "job" 0).2.1.get_sandbox "job" = some 0
    ∧ ((⟨[]⟩ : SandboxManager).create_sandbox "job" 0).1.temp_dir = 0 + 1
    ∧ ((⟨[]⟩ : SandboxManager).create_sandbox "job" 0).2.1.get_sandbox "job"
        ≠ some ((⟨[]⟩ : SandboxManager).create_sandbox "job" 0).1.path := by
  have h := c10_create_sandbox_returns_untracked_second_dir ⟨[]⟩ "job" 0 (by simp)
  exact ⟨h.1, h.2.1, h.2.2.1⟩

end CtfJail
